import Mathlib

set_option autoImplicit false

/-!
Verification of the stack-workflow repository.

Shallow embedding of the two Lambda modules of the repository:

* `StackWorkflow.Action` embeds `src/lambda/action/index.ts`, the stack
  lifecycle controller (create/update/upgrade/delete/describe/callback).
* `StackWorkflow.Workflow` embeds `src/lambda/workflow/index.ts`, the
  workflow interpreter (serial flattening, parallel fan-out, parameter
  resolution, pass-through callback).

External collaborators (CloudFormation, S3, JSONPath evaluation) are
modelled as explicit function parameters; side effects are modelled by
returning the list of provider calls / object-store writes an invocation
performs.  JavaScript truthiness on optional strings/booleans is modelled
explicitly by `jsTruthyStr` / `jsTruthyBool`; an out-of-range array index
produces the string "undefined" (JS string coercion of `undefined`), see
`jsIndex`.
-/

namespace StackWorkflow

/-- JS truthiness of an optional string (`undefined` and `''` are falsy). -/
def jsTruthyStr : Option String → Bool
  | some s => s ≠ ""
  | none => false

/-- JS truthiness of an optional boolean (`undefined` is falsy). -/
def jsTruthyBool : Option Bool → Bool
  | some b => b
  | none => false

/-- The `String.prototype.endsWith` test, computed on character lists so
that concrete instances reduce. -/
def strEndsWith (s suf : String) : Bool :=
  suf.toList.isSuffixOf s.toList

/-- The `String.prototype.startsWith` test, computed on character lists. -/
def strStartsWith (s p : String) : Bool :=
  p.toList.isPrefixOf s.toList

/-- Splitting a character list on a separator character, keeping empty
segments (the semantics of JS `split` with a one-character separator). -/
def splitOnChar (c : Char) : List Char → List (List Char)
  | [] => [[]]
  | x :: xs =>
    let r := splitOnChar c xs
    if x = c then [] :: r
    else
      match r with
      | [] => [[x]]
      | y :: ys => (x :: y) :: ys

/-- JS `value.split('.')`. -/
def strSplitOnDot (s : String) : List String :=
  (splitOnChar '.' s.toList).map List.asString

/-- JS `s.substring(0, s.length - n)` (clamped at zero). -/
def strDropRight (s : String) (n : Nat) : String :=
  (s.toList.take (s.toList.length - n)).asString

/-- Optional-chaining `endsWith`: an `undefined` receiver yields a falsy
result. -/
def jsEndsWith : Option String → String → Bool
  | some s, suf => strEndsWith s suf
  | none, _ => false

/-- Optional-chaining `startsWith`: an `undefined` receiver yields a falsy
result. -/
def jsStartsWith : Option String → String → Bool
  | some s, p => strStartsWith s p
  | none, _ => false

/-- JS array indexing followed by string coercion: an out-of-range index
gives `undefined`, which coerces to the string "undefined" when used in a
template literal or as an `endsWith` argument. -/
def jsIndex (l : List String) (i : Nat) : String :=
  (l.get? i).getD "undefined"

/-- AWS CloudFormation `Parameter` (both fields optional in the SDK). -/
structure Parameter where
  ParameterKey : Option String
  ParameterValue : Option String
deriving DecidableEq

/-- AWS CloudFormation `Tag`. -/
structure Tag where
  Key : String
  Value : String
deriving DecidableEq

/-- AWS CloudFormation stack `Output`. -/
structure Output where
  OutputKey : Option String
  OutputValue : Option String
deriving DecidableEq

/-- AWS CloudFormation `Stack` record, restricted to the fields the
repository reads or writes.  `CreationTime` is an abstract timestamp. -/
structure Stack where
  StackId : Option String
  StackName : Option String
  StackStatus : Option String
  StackStatusReason : Option String
  CreationTime : Option Nat
  Outputs : Option (List Output)
deriving DecidableEq

/-- One `putObject` call to the callback bucket (the Output Store): the
body is `JSON.stringify({ [stackName]: stack })`, modelled as the pair of
the stack name and the record. -/
structure PutCall where
  Bucket : String
  Key : String
  BodyStackName : String
  BodyStack : Stack
deriving DecidableEq

namespace Action

/-- `StackInput` of `src/lambda/action/index.ts`. -/
structure StackInput where
  Region : String
  StackName : String
  TemplateURL : String
  Parameters : List Parameter
  Tags : Option (List Tag)
deriving DecidableEq

/-- `StackEvent` of `src/lambda/action/index.ts`.  `ExecutionName` is
typed as required in the source interface but the code both checks its
truthiness and builds events without it, so it is optional here. -/
structure StackEvent where
  Action : String
  Input : StackInput
  ExecutionName : Option String
  Result : Option Stack
deriving DecidableEq

/-- `UpdateStackCommandInput` restricted to the fields the source sets. -/
structure UpdateStackCommandInput where
  StackName : Option String
  TemplateURL : Option String
  Parameters : Option (List Parameter)
  DisableRollback : Option Bool
  UsePreviousTemplate : Option Bool
  Capabilities : Option (List String)
  Tags : Option (List Tag)
deriving DecidableEq

/-- `UpdateStackCommandOutput` restricted to the field the source reads. -/
structure UpdateStackCommandOutput where
  StackId : Option String
deriving DecidableEq

/-- A CloudFormation service error as observed by the catch block of
`doUpdate`: whether it is a `CloudFormationServiceException`
(`instanceof` check), its `name` and its `message`. -/
structure CfnError where
  isServiceException : Bool
  name : String
  message : String
deriving DecidableEq

/-- Substring test on lists of characters (`String.prototype.includes`). -/
def containsSub : List Char → List Char → Bool
  | [], pat => pat.isEmpty
  | s :: rest, pat => pat.isPrefixOf (s :: rest) || containsSub rest pat

/-- `message.includes(pat)` for strings. -/
def strIncludes (s pat : String) : Bool :=
  containsSub s.toList pat.toList

/-- The guard of the retry branch in `doUpdate`: a
`CloudFormationServiceException` named `ValidationError` whose message
mentions the disable-rollback parameter. -/
def isRollbackValidationError (e : CfnError) : Bool :=
  e.isServiceException && e.name == "ValidationError" &&
    strIncludes e.message "please use the disable-rollback parameter with update-stack API"

/-- `doUpdate` of `src/lambda/action/index.ts`.  The CloudFormation
`send` is modelled by an oracle indexed by the number of update calls
already issued; the result also carries the list of command inputs sent,
in order.  `fuel` bounds the recursion (the source recursion is unbounded
whenever the provider keeps answering with the rollback validation
error); `none` marks fuel exhaustion. -/
def doUpdate (send : Nat → UpdateStackCommandInput → Except CfnError UpdateStackCommandOutput)
    (idx fuel : Nat) (input : UpdateStackCommandInput) :
    Option (Except String UpdateStackCommandOutput × List UpdateStackCommandInput) :=
  match fuel with
  | 0 => none
  | fuel + 1 =>
    match send idx input with
    | .ok out => some (.ok out, [input])
    | .error e =>
      if isRollbackValidationError e then
        match doUpdate send (idx + 1) fuel { input with DisableRollback := some true } with
        | none => none
        | some (r, tr) => some (r, input :: tr)
      else
        some (.error e.message, [input])

/-- The `UpdateStackCommandInput` built by `updateStack` (keeps the
previous template, rollback initially enabled). -/
def updateStackInput (event : StackEvent) : UpdateStackCommandInput :=
  { StackName := some event.Input.StackName
    TemplateURL := none
    Parameters := some event.Input.Parameters
    DisableRollback := some false
    UsePreviousTemplate := some true
    Capabilities := some ["CAPABILITY_IAM", "CAPABILITY_NAMED_IAM", "CAPABILITY_AUTO_EXPAND"]
    Tags := event.Input.Tags }

/-- The `UpdateStackCommandInput` built by `upgradeStack` (replaces the
template, rollback initially enabled). -/
def upgradeStackInput (event : StackEvent) : UpdateStackCommandInput :=
  { StackName := some event.Input.StackName
    TemplateURL := some event.Input.TemplateURL
    Parameters := some event.Input.Parameters
    DisableRollback := some false
    UsePreviousTemplate := some false
    Capabilities := some ["CAPABILITY_IAM", "CAPABILITY_NAMED_IAM", "CAPABILITY_AUTO_EXPAND"]
    Tags := event.Input.Tags }

/-- Shared result shape of `updateStack` / `upgradeStack`: transition to
`Describe` with the status seeded as update-in-progress. -/
def updateResultEvent (event : StackEvent) (now : Nat) (out : UpdateStackCommandOutput) : StackEvent :=
  { Action := "Describe"
    Input := event.Input
    ExecutionName := event.ExecutionName
    Result := some
      { StackId := out.StackId
        StackName := some event.Input.StackName
        StackStatus := some "UPDATE_IN_PROGRESS"
        StackStatusReason := none
        CreationTime := some now
        Outputs := none } }

/-- `updateStack` of `src/lambda/action/index.ts`. -/
def updateStack (send : Nat → UpdateStackCommandInput → Except CfnError UpdateStackCommandOutput)
    (now fuel : Nat) (event : StackEvent) :
    Option (Except String StackEvent × List UpdateStackCommandInput) :=
  match doUpdate send 0 fuel (updateStackInput event) with
  | none => none
  | some (.ok out, tr) => some (.ok (updateResultEvent event now out), tr)
  | some (.error m, tr) => some (.error m, tr)

/-- `upgradeStack` of `src/lambda/action/index.ts`. -/
def upgradeStack (send : Nat → UpdateStackCommandInput → Except CfnError UpdateStackCommandOutput)
    (now fuel : Nat) (event : StackEvent) :
    Option (Except String StackEvent × List UpdateStackCommandInput) :=
  match doUpdate send 0 fuel (upgradeStackInput event) with
  | none => none
  | some (.ok out, tr) => some (.ok (updateResultEvent event now out), tr)
  | some (.error m, tr) => some (.error m, tr)

/-- One CloudFormation call issued by `deleteStack` / `describeStack`. -/
inductive CfnCall where
  | describeCall (stackName : String)
  | updateTerminationProtection (enable : Bool) (stackName : Option String)
  | deleteCall (stackName : Option String)
deriving DecidableEq

/-- The name the controller targets at the provider:
`event.Result?.StackId ? event.Result?.StackId : event.Input.StackName`
(JS truthiness: an absent `Result`, an absent `StackId` and an empty
`StackId` all fall back to `Input.StackName`). -/
def targetStackName (event : StackEvent) : String :=
  match event.Result with
  | some r => if jsTruthyStr r.StackId then r.StackId.getD "" else event.Input.StackName
  | none => event.Input.StackName

/-- `deleteStack` of `src/lambda/action/index.ts`.  `descr` models
`describe` (region, name-or-id → stack or absent; its own catch already
converts provider errors to `undefined`); `now` models `new Date()`.
The second component is the ordered list of CloudFormation calls. -/
def deleteStack (descr : String → String → Option Stack) (now : Nat) (event : StackEvent) :
    Except String StackEvent × List CfnCall :=
  let name := targetStackName event
  match descr event.Input.Region name with
  | none =>
    (.ok { Action := "End", Input := event.Input, ExecutionName := none, Result := none },
      [.describeCall name])
  | some stack =>
    if stack.StackStatus = some "DELETE_COMPLETE" then
      (.ok { Action := "End", Input := event.Input, ExecutionName := none, Result := none },
        [.describeCall name])
    else
      (.ok { Action := "Describe"
             Input := event.Input
             ExecutionName := event.ExecutionName
             Result := some
               { StackId := stack.StackId
                 StackName := some event.Input.StackName
                 StackStatus := some "DELETE_IN_PROGRESS"
                 StackStatusReason := none
                 CreationTime := some now
                 Outputs := none } },
        [.describeCall name,
         .updateTerminationProtection false stack.StackId,
         .deleteCall stack.StackId])

/-- `describeStack` of `src/lambda/action/index.ts`. -/
def describeStack (descr : String → String → Option Stack) (event : StackEvent) :
    Except String StackEvent × List CfnCall :=
  let name := targetStackName event
  match descr event.Input.Region name with
  | none => (.error "Describe Stack failed.", [.describeCall name])
  | some stack =>
    if jsEndsWith stack.StackStatus "_IN_PROGRESS" then
      (.ok { Action := "Describe", Input := event.Input,
             ExecutionName := event.ExecutionName, Result := some stack },
        [.describeCall name])
    else
      (.ok { Action := "Callback", Input := event.Input,
             ExecutionName := event.ExecutionName, Result := some stack },
        [.describeCall name])

/-- `callback` of `src/lambda/action/index.ts`: persist the final record
to the Output Store, then fail iff the final status ends in `FAILED`. -/
def callback (bucket : Option String) (event : StackEvent) :
    Except String StackEvent × List PutCall :=
  if !jsTruthyStr bucket || !jsTruthyStr event.ExecutionName then
    (.error "Callback bucket name or execution name is undefined.", [])
  else
    match event.Result with
    | none => (.error "Stack result is undefined.", [])
    | some r =>
      let w : PutCall :=
        { Bucket := bucket.getD ""
          Key := (event.ExecutionName.getD "") ++ "/" ++ event.Input.StackName ++ "/output.json"
          BodyStackName := event.Input.StackName
          BodyStack := r }
      if jsEndsWith r.StackStatus "FAILED" then
        (.error (r.StackStatusReason.getD "Stack failed."), [w])
      else
        (.ok event, [w])

end Action

namespace Workflow

/-- The `Input` part of `StackData` in `src/lambda/workflow/index.ts`. -/
structure StackDataInput where
  Region : String
  Action : String
  StackName : String
  TemplateURL : String
  Parameters : List Parameter
  Tags : Option (List Tag)

/-- `StackData` of `src/lambda/workflow/index.ts`.  `ExecutionName` is
assigned by `stackParametersResolve` from the optional state-level
execution name, so it is optional here. -/
structure StackData where
  ExecutionName : Option String
  Input : StackDataInput

/-- `WorkflowState` of `src/lambda/workflow/index.ts`: one dynamic record
whose meaningful fields depend on `type`.  A parallel branch is encoded
as the pair `(StartAt, States)`; `callSelfData` holds the `Data` field of
a `CallSelf` state (which is itself a state, not a `StackData`). -/
inductive WorkflowState : Type where
  | mk (type : String) (executionName : Option String) (data : Option StackData)
      (branches : Option (List (String × List (String × WorkflowState))))
      (endFlag : Option Bool) (next : Option String) (startAt : Option String)
      (states : Option (List (String × WorkflowState)))
      (callSelfData : Option WorkflowState) : WorkflowState

/-- Accessor for the `Type` field. -/
def WorkflowState.type : WorkflowState → String
  | .mk t _ _ _ _ _ _ _ _ => t

/-- Accessor for the `ExecutionName` field. -/
def WorkflowState.ExecutionName : WorkflowState → Option String
  | .mk _ en _ _ _ _ _ _ _ => en

/-- Accessor for the `Data` field. -/
def WorkflowState.Data : WorkflowState → Option StackData
  | .mk _ _ d _ _ _ _ _ _ => d

/-- Accessor for the `Branches` field (pair-encoded branches). -/
def WorkflowState.Branches : WorkflowState → Option (List (String × List (String × WorkflowState)))
  | .mk _ _ _ b _ _ _ _ _ => b

/-- Accessor for the `End` field. -/
def WorkflowState.End : WorkflowState → Option Bool
  | .mk _ _ _ _ e _ _ _ _ => e

/-- Accessor for the `Next` field. -/
def WorkflowState.Next : WorkflowState → Option String
  | .mk _ _ _ _ _ n _ _ _ => n

/-- Accessor for the `StartAt` field (present on the bare branch shape). -/
def WorkflowState.StartAt : WorkflowState → Option String
  | .mk _ _ _ _ _ _ sa _ _ => sa

/-- Accessor for the `States` field (present on the bare branch shape). -/
def WorkflowState.States : WorkflowState → Option (List (String × WorkflowState))
  | .mk _ _ _ _ _ _ _ ss _ => ss

/-- Accessor for the `Data` field of a `CallSelf` state. -/
def WorkflowState.CallSelfData : WorkflowState → Option WorkflowState
  | .mk _ _ _ _ _ _ _ _ cs => cs

/-- In-place assignment `state.ExecutionName = e`. -/
def WorkflowState.setExecutionName : WorkflowState → Option String → WorkflowState
  | .mk t _ d b e n sa ss cs, en => .mk t en d b e n sa ss cs

/-- In-place assignment `state.Data = d`. -/
def WorkflowState.setData : WorkflowState → Option StackData → WorkflowState
  | .mk t en _ b e n sa ss cs, d => .mk t en d b e n sa ss cs

/-- In-place assignment of the `Data` field of a `CallSelf` state. -/
def WorkflowState.setCallSelfData : WorkflowState → Option WorkflowState → WorkflowState
  | .mk t en d b e n sa ss _, cs => .mk t en d b e n sa ss cs

/-- `WorkflowParallelBranch` of `src/lambda/workflow/index.ts`. -/
structure WorkflowParallelBranch where
  StartAt : String
  States : List (String × WorkflowState)

/-- Conversion from the pair encoding used inside `WorkflowState.Branches`. -/
def toBranch (p : String × List (String × WorkflowState)) : WorkflowParallelBranch :=
  { StartAt := p.1, States := p.2 }

/-- JS object property lookup `states[key]`. -/
def lookupState (states : List (String × WorkflowState)) (key : String) : Option WorkflowState :=
  (states.find? (fun p => p.1 == key)).map (·.2)

/-- The stamping step at the top of the `serial` loop: assign
`executionName` when the state has none or an empty one. -/
def stampExecutionName (executionName : String) (st : WorkflowState) : WorkflowState :=
  if !jsTruthyStr st.ExecutionName then st.setExecutionName (some executionName) else st

/-- The `while (true)` traversal of `serial`, keyed by the current state
name.  A lookup miss models the JS `TypeError` thrown when the loop reads
a property of `undefined` (a `Next` naming a nonexistent state).  The
loop carries no visited set, so its only bound is the explicit `fuel`;
`none` means the loop is still running after `fuel` iterations. -/
def serialGo (states : List (String × WorkflowState)) (executionName : String) :
    Nat → String → Option (Except String (List WorkflowState))
  | 0, _ => none
  | fuel + 1, key =>
    match lookupState states key with
    | none => some (.error "TypeError: Cannot read properties of undefined")
    | some st =>
      let st1 := stampExecutionName executionName st
      if jsTruthyBool st1.End || !jsTruthyStr st1.Next then
        some (.ok [st1])
      else
        match st1.Next with
        | some nk => (serialGo states executionName fuel nk).map (fun r => r.map (st1 :: ·))
        | none => some (.ok [st1])

/-- The `value` wrapper inside the event `Input`. -/
structure EventInput where
  value : Option WorkflowState

/-- The `Data` part of the initial event. -/
structure EventData where
  ExecutionName : Option String
  Input : Option EventInput

/-- `WorkFlowInitialEvent` of `src/lambda/workflow/index.ts`. -/
structure WorkFlowInitialEvent where
  type : String
  Data : Option EventData

/-- Result shape of the workflow `handler`: the four JS return shapes. -/
inductive HandlerResult where
  | passResult (event' : WorkFlowInitialEvent)
  | stackResult (state : WorkflowState)
  | serialResult (data : List WorkflowState)
  | parallelResult (branches : List WorkflowParallelBranch)

/-- `serial` of `src/lambda/workflow/index.ts`: flatten a branch into the
`{ Type: 'Serial', Data: [...] }` plan by traversing the linked list. -/
def serial (branch : WorkflowParallelBranch) (executionName : String) (fuel : Nat) :
    Option (Except String HandlerResult) :=
  (serialGo branch.States executionName fuel branch.StartAt).map (fun r => r.map .serialResult)

/-- `_pathExecutionName` of `src/lambda/workflow/index.ts` (note the
strict `=== undefined` check, and the overwrite whenever the incoming
execution name is the empty string). -/
def _pathExecutionName (state : WorkflowState) (executionName : String) : WorkflowState :=
  if state.ExecutionName = none ∨ executionName = "" then
    state.setExecutionName (some executionName)
  else state

/-- `_pathExecutionNameToBranches` of `src/lambda/workflow/index.ts`. -/
def _pathExecutionNameToBranches (branches : List WorkflowParallelBranch) (executionName : String) :
    List WorkflowParallelBranch :=
  branches.map (fun b =>
    { b with States := b.States.map (fun p =>
        (p.1,
          if p.2.ExecutionName = none ∨ executionName = "" then
            p.2.setExecutionName (some executionName)
          else p.2)) })

/-- `callback` of `src/lambda/workflow/index.ts`: describe the stack of
the embedded request and persist its record to the Output Store.  The
CloudFormation `describe` (whose own catch converts provider errors to
`undefined`) is the oracle `descr`. -/
def callback (bucket : Option String) (descr : String → String → Option Stack)
    (state : WorkflowState) : Except String Unit × List PutCall :=
  if !jsTruthyStr bucket || !jsTruthyStr state.ExecutionName then
    (.error "Callback bucket name or execution name is undefined.", [])
  else
    match state.Data with
    | none => (.error "Stack data is undefined.", [])
    | some d =>
      match descr d.Input.Region d.Input.StackName with
      | none => (.error "Describe Stack failed.", [])
      | some stack =>
        (.ok (),
          [{ Bucket := bucket.getD ""
             Key := (state.ExecutionName.getD "") ++ "/" ++ d.Input.StackName ++ "/output.json"
             BodyStackName := d.Input.StackName
             BodyStack := stack }])

/-- An Output Store object at a key, parsed: the JSON body
`{ [stackName]: StackRecord }` becomes an association list. -/
abbrev DocMap := List (String × Stack)

/-- The composition `getObject` + `JSON.parse`, as an oracle from bucket
and key; `none` covers both a missing object and a parse failure (the
source wraps both in one try/catch). -/
abbrev FetchDoc := String → String → Option DocMap

/-- Oracle for the `jsonpath-plus` `JSONPath({ path, json })` call,
returning the list of matches as strings. -/
abbrev JsonPathEval := String → DocMap → List String

/-- JS object property lookup on a parsed output document. -/
def lookupDoc (doc : DocMap) (name : String) : Option Stack :=
  (doc.find? (fun p => p.1 == name)).map (·.2)

/-- The scan loop of `_getParameterKeyAndValueByStackOutput`: first
output whose key ends with the suffix, value defaulted to the empty
string (an output without a key is skipped). -/
def firstOutputValueBySuffix : List Output → String → String
  | [], _ => ""
  | o :: rest, suf =>
    match o.OutputKey with
    | some okey => if strEndsWith okey suf then o.OutputValue.getD "" else firstOutputValueBySuffix rest suf
    | none => firstOutputValueBySuffix rest suf

/-- `_getParameterKeyAndValueByStackOutput` of `src/lambda/workflow/index.ts`. -/
def _getParameterKeyAndValueByStackOutput (fetchDoc : FetchDoc)
    (paramKey paramValue bucket pfx : String) : String × String :=
  let splitValues := strSplitOnDot paramValue
  let stackName := jsIndex splitValues 1
  let stackOutputs : Option (List Output) :=
    (fetchDoc bucket (pfx ++ "/" ++ stackName ++ "/output.json")).bind
      (fun doc => (lookupDoc doc stackName).bind (fun s => s.Outputs))
  let value :=
    match stackOutputs with
    | none => ""
    | some outs => firstOutputValueBySuffix outs (jsIndex splitValues 2)
  (strDropRight paramKey 2, value)

/-- `_getParameterKeyAndValueByJSONPath` of `src/lambda/workflow/index.ts`. -/
def _getParameterKeyAndValueByJSONPath (fetchDoc : FetchDoc) (jsonPathEval : JsonPathEval)
    (paramKey paramValue bucket pfx : String) : String × String :=
  let splitValues := strSplitOnDot paramValue
  let stackName := jsIndex splitValues 1
  let stackOutputs := fetchDoc bucket (pfx ++ "/" ++ stackName ++ "/output.json")
  let value :=
    match stackOutputs with
    | none => ""
    | some doc =>
      match jsonPathEval paramValue doc with
      | [] => ""
      | v :: _ => v
  (strDropRight paramKey 2, value)

/-- The body of the parameter loop in `stackParametersResolve`: route on
the key suffix and value shape, otherwise leave the pair unchanged. -/
def resolveParameter (fetchDoc : FetchDoc) (jsonPathEval : JsonPathEval)
    (bucket pfx : String) (p : Parameter) : Parameter :=
  if jsEndsWith p.ParameterKey ".$" && jsStartsWith p.ParameterValue "$." then
    let kv := _getParameterKeyAndValueByJSONPath fetchDoc jsonPathEval
      (p.ParameterKey.getD "") (p.ParameterValue.getD "") bucket pfx
    { ParameterKey := some kv.1, ParameterValue := some kv.2 }
  else if jsEndsWith p.ParameterKey ".#" && jsStartsWith p.ParameterValue "#." then
    let kv := _getParameterKeyAndValueByStackOutput fetchDoc
      (p.ParameterKey.getD "") (p.ParameterValue.getD "") bucket pfx
    { ParameterKey := some kv.1, ParameterValue := some kv.2 }
  else p

/-- `stackParametersResolve` of `src/lambda/workflow/index.ts`. -/
def stackParametersResolve (bucket : Option String) (fetchDoc : FetchDoc)
    (jsonPathEval : JsonPathEval) (state : WorkflowState) : Except String WorkflowState :=
  match state.Data with
  | none => .error "Stack data is undefined."
  | some d =>
    if !jsTruthyStr bucket || !jsTruthyStr state.ExecutionName then
      .error "Callback bucket name or execution name is undefined."
    else
      let pfx := state.ExecutionName.getD ""
      let params := d.Input.Parameters.map (resolveParameter fetchDoc jsonPathEval (bucket.getD "") pfx)
      .ok (state.setData (some
        { ExecutionName := state.ExecutionName
          Input := { d.Input with Parameters := params } }))

/-- Formalisation of a well-formed root-to-terminal traversal: `ks` is
the list of state names visited when starting the `serial` loop at `k`,
every name resolves, every non-final step is a non-terminal state whose
`Next` is the (truthy) following name, and the final state is terminal
(truthy `End`, or an absent or empty `Next`).  A branch is well-formed in
the sense of the specification (acyclic, every `Next` resolving) exactly
when such a finite list exists for its `StartAt`. -/
def validPath (states : List (String × WorkflowState)) : String → List String → Bool
  | _, [] => false
  | k, [k1] =>
    k == k1 &&
      match lookupState states k1 with
      | some st => jsTruthyBool st.End || !jsTruthyStr st.Next
      | none => false
  | k, k1 :: k2 :: rest =>
    k == k1 &&
      match lookupState states k1 with
      | some st =>
        !jsTruthyBool st.End && jsTruthyStr st.Next && st.Next == some k2 &&
          validPath states k2 (k2 :: rest)
      | none => false

/-- Build the initial invocation event around one workflow node. -/
def mkInitialEvent (en : Option String) (st : WorkflowState) : WorkFlowInitialEvent :=
  { type := "Initial", Data := some { ExecutionName := en, Input := some { value := some st } } }

/-- A `Parallel` node carrying the given branches. -/
def mkParallelState (branches : List (String × List (String × WorkflowState))) : WorkflowState :=
  .mk "Parallel" none none (some branches) none none none none none

/-- A bare branch shape (named states plus `StartAt`) with an arbitrary
unrecognized type tag, as accepted by the handler's default case. -/
def mkBareBranchState (t startAt : String) (states : List (String × WorkflowState)) : WorkflowState :=
  .mk t none none none none none (some startAt) (some states) none

/-- Rebuild the event after the in-place mutation of
`event.Data.Input.value`. -/
def setEventValue (event : WorkFlowInitialEvent) (v : Option WorkflowState) : WorkFlowInitialEvent :=
  { event with Data := event.Data.map (fun d =>
      { d with Input := d.Input.map (fun i => { i with value := v }) }) }

/-- The catch block of the workflow `handler` converts every error into
one generic invocation failure. -/
def wrapHandlerError : Except String HandlerResult → Except String HandlerResult
  | .error _ => .error "Stack workflow input failed."
  | .ok r => .ok r

/-- `handler` of `src/lambda/workflow/index.ts`.  `fuel` bounds the
`serial` traversal (`none` means that traversal is still running); the
second component lists the Output Store writes performed. -/
def handler (bucket : Option String) (descr : String → String → Option Stack)
    (fetchDoc : FetchDoc) (jsonPathEval : JsonPathEval) (fuel : Nat)
    (event : WorkFlowInitialEvent) : Option (Except String HandlerResult × List PutCall) :=
  let cur := (event.Data.bind (fun d => d.ExecutionName)).getD ""
  match event.Data.bind (fun d => d.Input.bind (fun i => i.value)) with
  | none => some (.error "Stack workflow input failed.", [])
  | some oi0 =>
    match (if oi0.type = "CallSelf" then oi0.CallSelfData else some oi0) with
    | none => some (.error "Stack workflow input failed.", [])
    | some oi =>
      if oi.type = "Pass" then
        let st := _pathExecutionName oi cur
        match callback bucket descr st with
        | (.ok _, ws) =>
          let v := if oi0.type = "CallSelf" then oi0.setCallSelfData (some st) else st
          some (.ok (.passResult (setEventValue event (some v))), ws)
        | (.error _, ws) => some (.error "Stack workflow input failed.", ws)
      else if oi.type = "Stack" then
        match stackParametersResolve bucket fetchDoc jsonPathEval (_pathExecutionName oi cur) with
        | .ok st => some (.ok (.stackResult st), [])
        | .error _ => some (.error "Stack workflow input failed.", [])
      else if oi.type = "Parallel" then
        match oi.Branches with
        | none => some (.error "Stack workflow input failed.", [])
        | some [] => some (.error "Stack workflow input failed.", [])
        | some [b] => (serial (toBranch b) cur fuel).map (fun r => (wrapHandlerError r, []))
        | some bs =>
          some (.ok (.parallelResult (_pathExecutionNameToBranches (bs.map toBranch) cur)), [])
      else
        match oi.States with
        | none => some (.error "Stack workflow input failed.", [])
        | some sts =>
          (serial { StartAt := oi.StartAt.getD "undefined", States := sts } cur fuel).map
            (fun r => (wrapHandlerError r, []))

end Workflow

namespace Fixtures

/-- A CloudFormation validation error carrying the rollback message. -/
def rollbackErr : Action.CfnError :=
  { isServiceException := true
    name := "ValidationError"
    message := "please use the disable-rollback parameter with update-stack API" }

/-- A CloudFormation send oracle that rejects the first update call with
the rollback validation error and accepts the second. -/
def sendRetryOk : Nat → Action.UpdateStackCommandInput → Except Action.CfnError Action.UpdateStackCommandOutput :=
  fun idx _ => if idx = 0 then .error rollbackErr else .ok { StackId := some "stack-id-1" }

/-- A concrete update event. -/
def updateEvent : Action.StackEvent :=
  { Action := "Update"
    Input := { Region := "r1", StackName := "S1", TemplateURL := "t1", Parameters := [], Tags := none }
    ExecutionName := some "exec-1"
    Result := none }

/-- A describe oracle for a provider with no stacks. -/
def descrAbsent : String → String → Option Stack := fun _ _ => none

/-- A delete event without a prior result. -/
def deleteEvent : Action.StackEvent :=
  { Action := "Delete"
    Input := { Region := "r1", StackName := "S1", TemplateURL := "t1", Parameters := [], Tags := none }
    ExecutionName := some "exec-1"
    Result := none }

/-- A terminal failed stack record. -/
def failedStack : Stack :=
  { StackId := some "sid-1"
    StackName := some "S1"
    StackStatus := some "UPDATE_ROLLBACK_FAILED"
    StackStatusReason := some "resource X failed"
    CreationTime := some 0
    Outputs := none }

/-- A callback event carrying a failed terminal result. -/
def failedCallbackEvent : Action.StackEvent :=
  { Action := "Callback"
    Input := { Region := "r1", StackName := "S1", TemplateURL := "t1", Parameters := [], Tags := none }
    ExecutionName := some "exec-1"
    Result := some failedStack }

/-- A describe event whose prior result carries a stack id. -/
def describeEventWithId : Action.StackEvent :=
  { Action := "Describe"
    Input := { Region := "r1", StackName := "S1", TemplateURL := "t1", Parameters := [], Tags := none }
    ExecutionName := some "exec-1"
    Result := some
      { StackId := some "arn:aws:cloudformation:r1:5:stack/S1"
        StackName := some "S1"
        StackStatus := some "DELETE_IN_PROGRESS"
        StackStatusReason := none
        CreationTime := some 0
        Outputs := none } }

/-- Two states pointing at each other: a cyclic branch. -/
def stCycA : Workflow.WorkflowState :=
  .mk "Stack" none none none none (some "B") none none none

/-- Second state of the cyclic branch. -/
def stCycB : Workflow.WorkflowState :=
  .mk "Stack" none none none none (some "A") none none none

/-- The state map of the cyclic branch. -/
def statesCyc : List (String × Workflow.WorkflowState) := [("A", stCycA), ("B", stCycB)]

/-- A state whose `Next` names a state that does not exist. -/
def stMiss : Workflow.WorkflowState :=
  .mk "Stack" none none none none (some "B") none none none

/-- The state map with the dangling `Next`. -/
def statesMiss : List (String × Workflow.WorkflowState) := [("A", stMiss)]

/-- A bare-branch handler event over the dangling-`Next` state map. -/
def missEvent : Workflow.WorkFlowInitialEvent :=
  Workflow.mkInitialEvent (some "exec-1") (Workflow.mkBareBranchState "Serial" "A" statesMiss)

/-- First state of a two-stack serial chain. -/
def stChain1 : Workflow.WorkflowState :=
  .mk "Stack" none none none none (some "S2") none none none

/-- Terminal second state of the chain. -/
def stChain2 : Workflow.WorkflowState :=
  .mk "Stack" none none none (some true) none none none none

/-- The state map of the serial chain. -/
def statesChain : List (String × Workflow.WorkflowState) := [("S1", stChain1), ("S2", stChain2)]

/-- A terminal state that already carries a different execution name. -/
def stPre : Workflow.WorkflowState :=
  .mk "Stack" (some "other") none none (some true) none none none none

/-- The one-state branch around `stPre`. -/
def statesPre : List (String × Workflow.WorkflowState) := [("A", stPre)]

/-- Stack data embedded in a Pass node. -/
def passStackData : Workflow.StackData :=
  { ExecutionName := none
    Input := { Region := "r1", Action := "Create", StackName := "S1", TemplateURL := "t1",
               Parameters := [], Tags := none } }

/-- A Pass node that already carries its execution name. -/
def passState : Workflow.WorkflowState :=
  .mk "Pass" (some "exec-1") (some passStackData) none (some true) none none none none

/-- The initial event around the Pass node. -/
def passEvent : Workflow.WorkFlowInitialEvent :=
  Workflow.mkInitialEvent (some "exec-1") passState

/-- A successfully created stack record. -/
def okStack : Stack :=
  { StackId := some "sid-1", StackName := some "S1", StackStatus := some "CREATE_COMPLETE",
    StackStatusReason := none, CreationTime := some 0, Outputs := none }

/-- A describe oracle knowing exactly the stack `S1` in region `r1`. -/
def descrS1 : String → String → Option Stack :=
  fun r n => if r = "r1" ∧ n = "S1" then some okStack else none

/-- An Output Store oracle with no objects. -/
def fetchNone : Workflow.FetchDoc := fun _ _ => none

/-- A JSONPath oracle with no matches. -/
def jsonPathNone : Workflow.JsonPathEval := fun _ _ => []

/-- The record persisted for `S1`, carrying one output whose key ends in
`QueueName`. -/
def s1Record : Stack :=
  { StackId := some "sid-1", StackName := some "S1", StackStatus := some "CREATE_COMPLETE",
    StackStatusReason := none, CreationTime := some 0,
    Outputs := some [{ OutputKey := some "xxxx-QueueName", OutputValue := some "q-123" }] }

/-- An Output Store oracle holding exactly the persisted record of `S1`
for execution `exec-1`. -/
def fetchS1 : Workflow.FetchDoc :=
  fun bucket key =>
    if bucket = "bucket-1" ∧ key = "exec-1/S1/output.json" then some [("S1", s1Record)] else none

/-- The suffix-reference parameter of scenario 2. -/
def suffixParam : Parameter := { ParameterKey := some "Name.#", ParameterValue := some "#.S1.QueueName" }

/-- A query-path reference parameter. -/
def jsonPathParam : Parameter :=
  { ParameterKey := some "Name.$", ParameterValue := some "$.S1.Outputs[0].OutputValue" }

end Fixtures

namespace Action

/-- C1: for an Update/Upgrade call, a first rejection with the
rollback-validation error is retried exactly once, with rollback
explicitly disabled on the retried request; a first rejection with any
other error is fatal with no retry, and a second, distinct failure after
the retry is fatal with no further call.  The call trace (second
component of `doUpdate`) records every update request sent, in order. -/
theorem doUpdate_rollback_retry_rule
    (send : Nat → UpdateStackCommandInput → Except CfnError UpdateStackCommandOutput)
    (input : UpdateStackCommandInput) (fuel : Nat) (hfuel : 2 ≤ fuel) :
    (∀ e, send 0 input = .error e → isRollbackValidationError e = false →
      doUpdate send 0 fuel input = some (.error e.message, [input])) ∧
    (∀ e, send 0 input = .error e → isRollbackValidationError e = true →
      (∀ out, send 1 { input with DisableRollback := some true } = .ok out →
        doUpdate send 0 fuel input =
          some (.ok out, [input, { input with DisableRollback := some true }])) ∧
      (∀ e2, send 1 { input with DisableRollback := some true } = .error e2 →
        isRollbackValidationError e2 = false →
        doUpdate send 0 fuel input =
          some (.error e2.message, [input, { input with DisableRollback := some true }]))) := by
  obtain ⟨f, rfl⟩ : ∃ f, fuel = f + 2 := ⟨fuel - 2, by omega⟩
  refine ⟨fun e h1 h2 => ?_, fun e h1 h2 => ⟨fun out hout => ?_, fun e2 h3 h4 => ?_⟩⟩
  · simp [doUpdate, h1, h2]
  · simp [doUpdate, h1, h2, hout]
  · simp [doUpdate, h1, h2, h3, h4]

/-- Witness for C1 at a concrete oracle: the first call fails with the
rollback message, the retry is sent with rollback disabled and succeeds. -/
theorem doUpdate_rollback_retry_rule_witness :
    doUpdate Fixtures.sendRetryOk 0 2 (updateStackInput Fixtures.updateEvent) =
      some (.ok { StackId := some "stack-id-1" },
        [updateStackInput Fixtures.updateEvent,
         { updateStackInput Fixtures.updateEvent with DisableRollback := some true }]) :=
  ((doUpdate_rollback_retry_rule Fixtures.sendRetryOk
      (updateStackInput Fixtures.updateEvent) 2 (by decide)).2
    Fixtures.rollbackErr rfl (by decide)).1 { StackId := some "stack-id-1" } rfl

/-- C4: a Delete invocation whose stack is absent or already
`DELETE_COMPLETE` returns `End` immediately, with the describe call as
the only provider call (no termination-protection update, no delete);
otherwise the controller disables termination protection, issues the
delete, and transitions to `Describe` seeded `DELETE_IN_PROGRESS`. -/
theorem deleteStack_idempotent
    (descr : String → String → Option Stack) (now : Nat) (event : StackEvent) :
    (descr event.Input.Region (targetStackName event) = none →
      deleteStack descr now event =
        (.ok { Action := "End", Input := event.Input, ExecutionName := none, Result := none },
          [.describeCall (targetStackName event)])) ∧
    (∀ s, descr event.Input.Region (targetStackName event) = some s →
      s.StackStatus = some "DELETE_COMPLETE" →
      deleteStack descr now event =
        (.ok { Action := "End", Input := event.Input, ExecutionName := none, Result := none },
          [.describeCall (targetStackName event)])) ∧
    (∀ s, descr event.Input.Region (targetStackName event) = some s →
      s.StackStatus ≠ some "DELETE_COMPLETE" →
      deleteStack descr now event =
        (.ok { Action := "Describe"
               Input := event.Input
               ExecutionName := event.ExecutionName
               Result := some
                 { StackId := s.StackId
                   StackName := some event.Input.StackName
                   StackStatus := some "DELETE_IN_PROGRESS"
                   StackStatusReason := none
                   CreationTime := some now
                   Outputs := none } },
          [.describeCall (targetStackName event),
           .updateTerminationProtection false s.StackId,
           .deleteCall s.StackId])) := by
  refine ⟨fun h => ?_, fun s h hs => ?_, fun s h hs => ?_⟩
  · simp [deleteStack, h]
  · simp [deleteStack, h, hs]
  · simp [deleteStack, h, hs]

/-- Witness for C4: deleting a stack the provider does not know returns
`End` with only the describe call issued. -/
theorem deleteStack_idempotent_witness :
    deleteStack Fixtures.descrAbsent 7 Fixtures.deleteEvent =
      (.ok { Action := "End", Input := Fixtures.deleteEvent.Input,
             ExecutionName := none, Result := none },
        [.describeCall "S1"]) :=
  (deleteStack_idempotent Fixtures.descrAbsent 7 Fixtures.deleteEvent).1 rfl

/-- C5: `callback` persists the final record to the Output Store under
`executionName/stackName/output.json` in both outcomes; when the final
status ends in `FAILED` it then signals failure carrying the provider's
status reason, and when it does not, it returns the event unchanged
without error. -/
theorem callback_persists_before_failure
    (bucket : Option String) (event : StackEvent) (r : Stack)
    (hb : jsTruthyStr bucket = true) (he : jsTruthyStr event.ExecutionName = true)
    (hr : event.Result = some r) :
    (∀ reason, jsEndsWith r.StackStatus "FAILED" = true → r.StackStatusReason = some reason →
      callback bucket event =
        (.error reason,
          [{ Bucket := bucket.getD ""
             Key := (event.ExecutionName.getD "") ++ "/" ++ event.Input.StackName ++ "/output.json"
             BodyStackName := event.Input.StackName
             BodyStack := r }])) ∧
    (jsEndsWith r.StackStatus "FAILED" = false →
      callback bucket event =
        (.ok event,
          [{ Bucket := bucket.getD ""
             Key := (event.ExecutionName.getD "") ++ "/" ++ event.Input.StackName ++ "/output.json"
             BodyStackName := event.Input.StackName
             BodyStack := r }])) := by
  refine ⟨fun reason hf hreason => ?_, fun hf => ?_⟩
  · simp [callback, hb, he, hr, hf, hreason]
  · simp [callback, hb, he, hr, hf]

/-- Witness for C5: a failed terminal status is persisted and the raised
error carries the provider's status reason. -/
theorem callback_persists_before_failure_witness :
    callback (some "bucket-1") Fixtures.failedCallbackEvent =
      (.error "resource X failed",
        [{ Bucket := "bucket-1"
           Key := "exec-1/S1/output.json"
           BodyStackName := "S1"
           BodyStack := Fixtures.failedStack }]) :=
  (callback_persists_before_failure (some "bucket-1") Fixtures.failedCallbackEvent
      Fixtures.failedStack (by decide) (by decide) rfl).1
    "resource X failed" (by decide) rfl

/-- C10: both `deleteStack` and `describeStack` direct their describe
call at `targetStackName`, which is the prior `Result.StackId` whenever
one is present and non-empty and `Input.StackName` otherwise. -/
theorem describe_delete_target_prior_stack_id
    (descr : String → String → Option Stack) (now : Nat) (event : StackEvent) :
    ((deleteStack descr now event).2.head? = some (.describeCall (targetStackName event))) ∧
    ((describeStack descr event).2.head? = some (.describeCall (targetStackName event))) ∧
    (∀ r s, event.Result = some r → r.StackId = some s → s ≠ "" → targetStackName event = s) ∧
    (event.Result = none → targetStackName event = event.Input.StackName) ∧
    (∀ r, event.Result = some r → (r.StackId = none ∨ r.StackId = some "") →
      targetStackName event = event.Input.StackName) := by
  refine ⟨?_, ?_, fun r s hr hid hne => ?_, fun hr => ?_, fun r hr hid => ?_⟩
  · cases h : descr event.Input.Region (targetStackName event) with
    | none => simp [deleteStack, h]
    | some s => simp [deleteStack, h]; split <;> simp
  · cases h : descr event.Input.Region (targetStackName event) with
    | none => simp [describeStack, h]
    | some s => simp [describeStack, h]; split <;> simp
  · simp [targetStackName, hr, hid, jsTruthyStr, hne]
  · simp [targetStackName, hr]
  · rcases hid with hid | hid <;> simp [targetStackName, hr, hid, jsTruthyStr]

/-- Witness for C10: a prior result with a non-empty stack id is the
describe target of both controller states. -/
theorem describe_delete_target_prior_stack_id_witness :
    targetStackName Fixtures.describeEventWithId = "arn:aws:cloudformation:r1:5:stack/S1" ∧
    (deleteStack Fixtures.descrAbsent 0 Fixtures.describeEventWithId).2.head? =
      some (.describeCall "arn:aws:cloudformation:r1:5:stack/S1") ∧
    (describeStack Fixtures.descrAbsent Fixtures.describeEventWithId).2.head? =
      some (.describeCall "arn:aws:cloudformation:r1:5:stack/S1") := by
  have h := describe_delete_target_prior_stack_id Fixtures.descrAbsent 0 Fixtures.describeEventWithId
  exact ⟨h.2.2.1 _ _ rfl rfl (by decide), h.1, h.2.1⟩

end Action

namespace Workflow

/-- Setting the execution name sets exactly that field. -/
@[simp] theorem setExecutionName_ExecutionName (st : WorkflowState) (en : Option String) :
    (st.setExecutionName en).ExecutionName = en := by
  cases st; rfl

/-- Setting the execution name leaves `End` unchanged. -/
@[simp] theorem setExecutionName_End (st : WorkflowState) (en : Option String) :
    (st.setExecutionName en).End = st.End := by
  cases st; rfl

/-- Setting the execution name leaves `Next` unchanged. -/
@[simp] theorem setExecutionName_Next (st : WorkflowState) (en : Option String) :
    (st.setExecutionName en).Next = st.Next := by
  cases st; rfl

/-- Stamping leaves `End` unchanged. -/
@[simp] theorem stampExecutionName_End (e : String) (st : WorkflowState) :
    (stampExecutionName e st).End = st.End := by
  unfold stampExecutionName; split <;> simp

/-- Stamping leaves `Next` unchanged. -/
@[simp] theorem stampExecutionName_Next (e : String) (st : WorkflowState) :
    (stampExecutionName e st).Next = st.Next := by
  unfold stampExecutionName; split <;> simp

/-- C2: the `serial` traversal surfaces a `Next` naming a nonexistent
state as an error (which the handler turns into the fatal invocation
failure), but it does not detect revisits: on the two-state cycle the
loop is still running after any amount of fuel, for both entry points,
i.e. the traversal never terminates instead of rejecting the cycle. -/
theorem serial_missing_next_fatal_cycle_not_detected :
    (∀ fuel, serialGo Fixtures.statesCyc "exec-1" fuel "A" = none) ∧
    (∀ fuel, serialGo Fixtures.statesCyc "exec-1" fuel "B" = none) ∧
    serialGo Fixtures.statesMiss "exec-1" 2 "A" =
      some (.error "TypeError: Cannot read properties of undefined") ∧
    handler (some "bucket-1") Fixtures.descrAbsent Fixtures.fetchNone Fixtures.jsonPathNone 5
        Fixtures.missEvent =
      some (.error "Stack workflow input failed.", []) := by
  have key : ∀ fuel, serialGo Fixtures.statesCyc "exec-1" fuel "A" = none ∧
      serialGo Fixtures.statesCyc "exec-1" fuel "B" = none := by
    intro fuel
    induction fuel with
    | zero => exact ⟨rfl, rfl⟩
    | succ n ih =>
      have hA : serialGo Fixtures.statesCyc "exec-1" (n + 1) "A" =
          (serialGo Fixtures.statesCyc "exec-1" n "B").map
            (fun r => r.map (stampExecutionName "exec-1" Fixtures.stCycA :: ·)) := rfl
      have hB : serialGo Fixtures.statesCyc "exec-1" (n + 1) "B" =
          (serialGo Fixtures.statesCyc "exec-1" n "A").map
            (fun r => r.map (stampExecutionName "exec-1" Fixtures.stCycB :: ·)) := rfl
      rw [hA, hB, ih.1, ih.2]
      exact ⟨rfl, rfl⟩
  exact ⟨fun fuel => (key fuel).1, fun fuel => (key fuel).2, rfl, rfl⟩

/-- On a well-formed root-to-terminal path the `serial` loop succeeds
with exactly the states of the path, in path order, each stamped. -/
theorem serialGo_validPath (states : List (String × WorkflowState)) (e : String) :
    ∀ (ks : List String) (k : String) (fuel : Nat),
      validPath states k ks = true → ks.length ≤ fuel →
      serialGo states e fuel k =
        some (.ok (ks.filterMap (fun k' => (lookupState states k').map (stampExecutionName e)))) := by
  intro ks
  induction ks with
  | nil => intro k fuel h _; simp [validPath] at h
  | cons k1 tl ih =>
    intro k fuel h hfuel
    cases tl with
    | nil =>
      rw [show validPath states k [k1] =
            (k == k1 &&
              match lookupState states k1 with
              | some st => jsTruthyBool st.End || !jsTruthyStr st.Next
              | none => false) from rfl,
          Bool.and_eq_true] at h
      obtain ⟨hk, hterm⟩ := h
      have hk' : k = k1 := by simpa using hk
      subst hk'
      obtain ⟨f, rfl⟩ : ∃ f, fuel = f + 1 := ⟨fuel - 1, by simp at hfuel; omega⟩
      cases hl : lookupState states k with
      | none => rw [hl] at hterm; simp at hterm
      | some st =>
        rw [hl] at hterm
        have hterm' : (jsTruthyBool st.End || !jsTruthyStr st.Next) = true := by
          simpa using hterm
        have h1 : jsTruthyBool st.End = true ∨ jsTruthyStr st.Next = false := by
          rcases Bool.or_eq_true_iff.mp hterm' with h | h
          · exact .inl h
          · exact .inr (by simpa using h)
        rcases h1 with h | h <;> simp [serialGo, hl, h]
    | cons k2 rest =>
      rw [show validPath states k (k1 :: k2 :: rest) =
            (k == k1 &&
              match lookupState states k1 with
              | some st =>
                !jsTruthyBool st.End && jsTruthyStr st.Next && st.Next == some k2 &&
                  validPath states k2 (k2 :: rest)
              | none => false) from rfl,
          Bool.and_eq_true] at h
      obtain ⟨hk, hstep⟩ := h
      have hk' : k = k1 := by simpa using hk
      subst hk'
      obtain ⟨f, rfl⟩ : ∃ f, fuel = f + 1 := ⟨fuel - 1, by simp at hfuel; omega⟩
      cases hl : lookupState states k with
      | none => rw [hl] at hstep; simp at hstep
      | some st =>
        rw [hl, Bool.and_eq_true, Bool.and_eq_true, Bool.and_eq_true] at hstep
        obtain ⟨⟨⟨hend, htruthy⟩, hnext⟩, hrec⟩ := hstep
        have hnext' : st.Next = some k2 := by simpa using hnext
        have hf : (k2 :: rest).length ≤ f := by simp at hfuel ⊢; omega
        have ihh := ih k2 f hrec hf
        have hend' : jsTruthyBool st.End = false := by simpa using hend
        have hk2t : jsTruthyStr (some k2) = true := by rw [← hnext']; exact htruthy
        simp [serialGo, hl, hnext', ihh, hend', hk2t, Except.map]

/-- C3 (amended): for a well-formed branch (witnessed by its
root-to-terminal name path), `serial` returns the states in exactly the
traversal order from the start name, and, provided no visited state
already carries a non-empty execution name, every element of the plan
carries the supplied execution name.  (A state with a prior non-empty
execution name keeps that name, see the counterexample.) -/
theorem serial_branch_linearization
    (states : List (String × WorkflowState)) (e : String) (ks : List String) (k : String)
    (fuel : Nat) (hpath : validPath states k ks = true) (hfuel : ks.length ≤ fuel) :
    serialGo states e fuel k =
      some (.ok (ks.filterMap (fun k' => (lookupState states k').map (stampExecutionName e)))) ∧
    ((∀ p ∈ states, jsTruthyStr p.2.ExecutionName = false) →
      ∀ st ∈ ks.filterMap (fun k' => (lookupState states k').map (stampExecutionName e)),
        st.ExecutionName = some e) := by
  refine ⟨serialGo_validPath states e ks k fuel hpath hfuel, fun hfresh st hst => ?_⟩
  rw [List.mem_filterMap] at hst
  obtain ⟨k', _, hmap⟩ := hst
  cases hl : lookupState states k' with
  | none => rw [hl] at hmap; simp at hmap
  | some st0 =>
    rw [hl] at hmap
    simp only [Option.map_some', Option.some.injEq] at hmap
    have hmem : ∃ p ∈ states, p.2 = st0 := by
      unfold lookupState at hl
      cases hf : states.find? (fun p => p.1 == k') with
      | none => rw [hf] at hl; simp at hl
      | some pr =>
        rw [hf] at hl
        simp only [Option.map_some', Option.some.injEq] at hl
        exact ⟨pr, List.mem_of_find?_eq_some hf, hl⟩
    obtain ⟨p, hp, hps⟩ := hmem
    have hfr := hfresh p hp
    rw [hps] at hfr
    rw [← hmap]
    simp [stampExecutionName, hfr]

/-- Witness for C3 on the two-stack chain of scenario 3: the plan is
`[S1, S2]` in traversal order, both stamped with the execution name. -/
theorem serial_branch_linearization_witness :
    validPath Fixtures.statesChain "S1" ["S1", "S2"] = true ∧
    serialGo Fixtures.statesChain "exec-1" 2 "S1" =
      some (.ok (["S1", "S2"].filterMap
        (fun k' => (lookupState Fixtures.statesChain k').map (stampExecutionName "exec-1")))) ∧
    (∀ st ∈ ["S1", "S2"].filterMap
        (fun k' => (lookupState Fixtures.statesChain k').map (stampExecutionName "exec-1")),
      st.ExecutionName = some "exec-1") := by
  have h := serial_branch_linearization Fixtures.statesChain "exec-1" ["S1", "S2"] "S1" 2
    (by decide) (by decide)
  exact ⟨by decide, h.1, h.2 (by decide)⟩

/-- Counterexample to C3 as stated: a well-formed one-state branch whose
state already carries the execution name "other" is returned carrying
"other", not the supplied name "exec-1". -/
theorem serial_supplied_name_counterexample :
    validPath Fixtures.statesPre "A" ["A"] = true ∧
    serialGo Fixtures.statesPre "exec-1" 1 "A" = some (.ok [Fixtures.stPre]) ∧
    Fixtures.stPre.ExecutionName = some "other" ∧
    (some "other" : Option String) ≠ some "exec-1" := by
  exact ⟨by decide, rfl, rfl, by decide⟩

/-- C8: a `Parallel` node with exactly one branch produces exactly the
same handler result (and the same writes) as submitting that branch
directly as a bare named-states shape with any unrecognized type tag:
both routes flatten through `serial`. -/
theorem parallel_single_branch_collapse
    (bucket : Option String) (descr : String → String → Option Stack)
    (fetchDoc : FetchDoc) (jsonPathEval : JsonPathEval) (fuel : Nat)
    (en : Option String) (t : String) (b : String × List (String × WorkflowState))
    (ht1 : t ≠ "CallSelf") (ht2 : t ≠ "Pass") (ht3 : t ≠ "Stack") (ht4 : t ≠ "Parallel") :
    handler bucket descr fetchDoc jsonPathEval fuel (mkInitialEvent en (mkParallelState [b])) =
      handler bucket descr fetchDoc jsonPathEval fuel
        (mkInitialEvent en (mkBareBranchState t b.1 b.2)) := by
  simp [handler, mkInitialEvent, mkParallelState, mkBareBranchState, ht1, ht2, ht3, ht4,
    WorkflowState.type, WorkflowState.Branches, WorkflowState.States, WorkflowState.StartAt,
    WorkflowState.CallSelfData, toBranch, serial]

/-- Witness for C8 on the two-stack chain: the single-branch parallel
event and the bare-branch event evaluate to the same result. -/
theorem parallel_single_branch_collapse_witness :
    handler (some "bucket-1") Fixtures.descrAbsent Fixtures.fetchNone Fixtures.jsonPathNone 5
        (mkInitialEvent (some "exec-1") (mkParallelState [("S1", Fixtures.statesChain)])) =
      handler (some "bucket-1") Fixtures.descrAbsent Fixtures.fetchNone Fixtures.jsonPathNone 5
        (mkInitialEvent (some "exec-1") (mkBareBranchState "Serial" "S1" Fixtures.statesChain)) :=
  parallel_single_branch_collapse (some "bucket-1") Fixtures.descrAbsent Fixtures.fetchNone
    Fixtures.jsonPathNone 5 (some "exec-1") "Serial" ("S1", Fixtures.statesChain)
    (by decide) (by decide) (by decide) (by decide)

/-- C9 (behaviour at the failing input): on a Pass node the handler does
perform the commit side effect — it describes the embedded request's
stack and persists the record under `executionName/stackName/output.json`
— but the value it returns is the whole initial event wrapper (type
`Initial`), not the Pass node itself as the claim and the repository's
own `Initial Pass` unit test state. -/
theorem pass_persists_but_returns_event_wrapper :
    handler (some "bucket-1") Fixtures.descrS1 Fixtures.fetchNone Fixtures.jsonPathNone 1
        Fixtures.passEvent =
      some (.ok (.passResult Fixtures.passEvent),
        [{ Bucket := "bucket-1", Key := "exec-1/S1/output.json",
           BodyStackName := "S1", BodyStack := Fixtures.okStack }]) ∧
    Fixtures.passEvent.type = "Initial" ∧
    Fixtures.passState.type = "Pass" ∧
    Fixtures.passEvent.type ≠ Fixtures.passState.type := by
  refine ⟨rfl, rfl, rfl, by decide⟩

/-- A string starting with the hash reference marker does not start with
the query-path marker. -/
theorem strStartsWith_hash_not_dollar (v : String) (h : strStartsWith v "#." = true) :
    strStartsWith v "$." = false := by
  unfold strStartsWith at h ⊢
  rw [show "#.".toList = ['#', '.'] from rfl] at h
  rw [show "$.".toList = ['$', '.'] from rfl]
  rcases hv : v.toList with _ | ⟨c, cs⟩
  · rw [hv] at h
    exact absurd h (by decide)
  · rw [hv] at h
    rw [show (['#', '.'].isPrefixOf (c :: cs)) = (('#' == c) && ['.'].isPrefixOf cs) from rfl,
      Bool.and_eq_true] at h
    obtain ⟨hc, _⟩ := h
    have hc' : c = '#' := (eq_of_beq hc).symm
    subst hc'
    rw [show (['$', '.'].isPrefixOf ('#' :: cs)) = (('$' == '#') && ['.'].isPrefixOf cs) from rfl]
    simp

/-- The scan of `firstOutputValueBySuffix` returns the value of the first
output whose key ends with the suffix (`List.find?`), and the empty
string when none matches or the match has no value. -/
theorem firstOutputValueBySuffix_eq_find (outs : List Output) (suf : String) :
    firstOutputValueBySuffix outs suf =
      ((outs.find? (fun o =>
          match o.OutputKey with
          | some okey => strEndsWith okey suf
          | none => false)).map (fun o => o.OutputValue.getD "")).getD "" := by
  induction outs with
  | nil => rfl
  | cons o rest ih =>
    cases hko : o.OutputKey with
    | none => simp [firstOutputValueBySuffix, List.find?_cons, hko, ih]
    | some okey =>
      by_cases he : strEndsWith okey suf = true
      · simp [firstOutputValueBySuffix, List.find?_cons, hko, he]
      · simp [firstOutputValueBySuffix, List.find?_cons, hko, he, ih]

/-- C6: a parameter with key suffix `.#` and value `#.<stackName>.<suffix>`
resolves by taking the second dot token as the producing stack name,
reading that stack's persisted `Outputs`, linearly scanning for the first
output whose key ends with the suffix (empty string when none matches),
and replacing the pair with the stripped key and that value; the
surrounding resolver rewrites each parameter in place, preserving order. -/
theorem suffix_reference_resolution
    (fetchDoc : FetchDoc) (jsonPathEval : JsonPathEval) (bucket pfx : String)
    (p : Parameter) (k v sName suf : String)
    (hk : p.ParameterKey = some k) (hk2 : strEndsWith k ".#" = true)
    (hv : p.ParameterValue = some v) (hv2 : strStartsWith v "#." = true)
    (hsplit : strSplitOnDot v = ["#", sName, suf])
    (doc : DocMap) (outs : List Output)
    (hdoc : fetchDoc bucket (pfx ++ "/" ++ sName ++ "/output.json") = some doc)
    (houts : (lookupDoc doc sName).bind (fun s => s.Outputs) = some outs) :
    resolveParameter fetchDoc jsonPathEval bucket pfx p =
      { ParameterKey := some (strDropRight k 2)
        ParameterValue := some (firstOutputValueBySuffix outs suf) } ∧
    firstOutputValueBySuffix outs suf =
      ((outs.find? (fun o =>
          match o.OutputKey with
          | some okey => strEndsWith okey suf
          | none => false)).map (fun o => o.OutputValue.getD "")).getD "" ∧
    (∀ (bucketO : Option String) (state : WorkflowState) (d : StackData),
      state.Data = some d → jsTruthyStr bucketO = true → jsTruthyStr state.ExecutionName = true →
      stackParametersResolve bucketO fetchDoc jsonPathEval state =
        .ok (state.setData (some
          { ExecutionName := state.ExecutionName
            Input := { d.Input with
                       Parameters := d.Input.Parameters.map
                                       (resolveParameter fetchDoc jsonPathEval (bucketO.getD "")
                                         (state.ExecutionName.getD "")) } }))) := by
  refine ⟨?_, firstOutputValueBySuffix_eq_find outs suf, fun bucketO state d hd hb he => ?_⟩
  · have hnd := strStartsWith_hash_not_dollar v hv2
    simp [resolveParameter, jsEndsWith, jsStartsWith, hk, hv, hk2, hv2, hnd,
      _getParameterKeyAndValueByStackOutput, hsplit, jsIndex, hdoc, houts]
  · simp [stackParametersResolve, hd, hb, he]

/-- Witness for C6, scenario 2: key `Name.#`, value `#.S1.QueueName`,
with a persisted output key ending in `QueueName` and value `q-123`. -/
theorem suffix_reference_resolution_witness :
    resolveParameter Fixtures.fetchS1 Fixtures.jsonPathNone "bucket-1" "exec-1"
        Fixtures.suffixParam =
      { ParameterKey := some "Name", ParameterValue := some "q-123" } := by
  have h := suffix_reference_resolution Fixtures.fetchS1 Fixtures.jsonPathNone "bucket-1" "exec-1"
    Fixtures.suffixParam "Name.#" "#.S1.QueueName" "S1" "QueueName"
    rfl (by decide) rfl (by decide) (by decide)
    [("S1", Fixtures.s1Record)]
    [{ OutputKey := some "xxxx-QueueName", OutputValue := some "q-123" }]
    (by decide) (by decide)
  exact h.1

/-- C7: an unresolvable reference — missing or unparsable stored record,
missing stack entry or `Outputs`, no suffix match, or no JSONPath match —
resolves to the stripped key and the empty string; `resolveParameter` is
total, so the request is never aborted. -/
theorem unresolvable_reference_empty_string
    (fetchDoc : FetchDoc) (jsonPathEval : JsonPathEval) (bucket pfx : String)
    (p : Parameter) (k v : String)
    (hk : p.ParameterKey = some k) (hv : p.ParameterValue = some v) :
    (strEndsWith k ".#" = true → strStartsWith v "#." = true →
      ((fetchDoc bucket (pfx ++ "/" ++ jsIndex (strSplitOnDot v) 1 ++ "/output.json")).bind
          (fun doc => (lookupDoc doc (jsIndex (strSplitOnDot v) 1)).bind (fun s => s.Outputs)) =
            none →
        resolveParameter fetchDoc jsonPathEval bucket pfx p =
          { ParameterKey := some (strDropRight k 2), ParameterValue := some "" }) ∧
      (∀ outs,
        (fetchDoc bucket (pfx ++ "/" ++ jsIndex (strSplitOnDot v) 1 ++ "/output.json")).bind
          (fun doc => (lookupDoc doc (jsIndex (strSplitOnDot v) 1)).bind (fun s => s.Outputs)) =
            some outs →
        outs.find? (fun o =>
          match o.OutputKey with
          | some okey => strEndsWith okey (jsIndex (strSplitOnDot v) 2)
          | none => false) = none →
        resolveParameter fetchDoc jsonPathEval bucket pfx p =
          { ParameterKey := some (strDropRight k 2), ParameterValue := some "" })) ∧
    (strEndsWith k ".$" = true → strStartsWith v "$." = true →
      (fetchDoc bucket (pfx ++ "/" ++ jsIndex (strSplitOnDot v) 1 ++ "/output.json") = none →
        resolveParameter fetchDoc jsonPathEval bucket pfx p =
          { ParameterKey := some (strDropRight k 2), ParameterValue := some "" }) ∧
      (∀ doc,
        fetchDoc bucket (pfx ++ "/" ++ jsIndex (strSplitOnDot v) 1 ++ "/output.json") = some doc →
        jsonPathEval v doc = [] →
        resolveParameter fetchDoc jsonPathEval bucket pfx p =
          { ParameterKey := some (strDropRight k 2), ParameterValue := some "" })) := by
  constructor
  · intro hk2 hv2
    have hnd := strStartsWith_hash_not_dollar v hv2
    constructor
    · intro hchain
      simp [resolveParameter, jsEndsWith, jsStartsWith, hk, hv, hk2, hv2, hnd,
        _getParameterKeyAndValueByStackOutput, hchain]
    · intro outs hchain hfind
      have hval : firstOutputValueBySuffix outs (jsIndex (strSplitOnDot v) 2) = "" := by
        rw [firstOutputValueBySuffix_eq_find, hfind]; rfl
      simp [resolveParameter, jsEndsWith, jsStartsWith, hk, hv, hk2, hv2, hnd,
        _getParameterKeyAndValueByStackOutput, hchain, hval]
  · intro hk2 hv2
    constructor
    · intro hfetch
      simp [resolveParameter, jsEndsWith, jsStartsWith, hk, hv, hk2, hv2,
        _getParameterKeyAndValueByJSONPath, hfetch]
    · intro doc hfetch heval
      simp [resolveParameter, jsEndsWith, jsStartsWith, hk, hv, hk2, hv2,
        _getParameterKeyAndValueByJSONPath, hfetch, heval]

/-- Witness for C7: with an empty Output Store both reference forms
resolve to the stripped key and the empty string. -/
theorem unresolvable_reference_empty_string_witness :
    resolveParameter Fixtures.fetchNone Fixtures.jsonPathNone "bucket-1" "exec-1"
        Fixtures.suffixParam =
      { ParameterKey := some "Name", ParameterValue := some "" } ∧
    resolveParameter Fixtures.fetchNone Fixtures.jsonPathNone "bucket-1" "exec-1"
        Fixtures.jsonPathParam =
      { ParameterKey := some "Name", ParameterValue := some "" } := by
  have hA := unresolvable_reference_empty_string Fixtures.fetchNone Fixtures.jsonPathNone
    "bucket-1" "exec-1" Fixtures.suffixParam "Name.#" "#.S1.QueueName" rfl rfl
  have hB := unresolvable_reference_empty_string Fixtures.fetchNone Fixtures.jsonPathNone
    "bucket-1" "exec-1" Fixtures.jsonPathParam "Name.$" "$.S1.Outputs[0].OutputValue" rfl rfl
  exact ⟨(hA.1 (by decide) (by decide)).1 rfl, (hB.2 (by decide) (by decide)).1 rfl⟩

end Workflow

end StackWorkflow
